import Mathlib

/-!
Shallow embedding of the middleware composition layer of the
tradera-go-client repository: the error classifier (errors.go),
the token-bucket rate limiter (middleware/ratelimit.go), the
exponential-backoff retryer (middleware/retry.go), the TTL cache
(middleware/cache.go) and the dispatcher composition
(tradera.go / public_client.go).

Modelling conventions:
  * Go `error` values become `Option GoError` (`none` = nil error).
  * `time.Time` / `time.Duration` become `ℚ` (nanoseconds for durations,
    an abstract rational timeline for instants); float64 arithmetic is
    modelled exactly over `ℚ`.
  * `context.Context` becomes an optional cancellation instant
    `cancelledAt : Option ℚ`: the context's Done channel is closed at
    every time `t` with `cancelledAt ≤ t`.
  * `rand.Float64()` draws are supplied explicitly as a stream
    `us : ℕ → ℚ` of samples in `[0, 1)`.
  * Blocking loops (`RateLimiter.Wait`) take a fuel argument and return
    `none` when the fuel is exhausted (the Go code would still be
    blocking at that point).
-/

namespace Tradera

/-- Go error values that flow through the middleware, from errors.go:
the sentinel errors, `APIError`, `SOAPFault`, `NetworkError` (the only
type implementing `Unwrap`), the context cancellation error returned by
`ctx.Err()`, and opaque `errors.New`-style errors. -/
inductive GoError where
  | networkError (op : String) (wrapped : GoError)
  | networkErrorNil (op : String)
  | errRateLimited
  | errTimeout
  | errNotFound
  | errInvalidAppID
  | errInvalidAppKey
  | errAuthRequired
  | soapFault (faultCode faultString detail : String)
  | apiError (code message details : String)
  | contextCanceled
  | errorNew (msg : String)
deriving DecidableEq, Repr

/-- `errors.Unwrap`: only `*NetworkError` implements `Unwrap` in the
source (`networkError` wraps a non-nil error, `networkErrorNil` a nil
one); every other error has no wrapped error. -/
def GoError.unwrap : GoError → Option GoError
  | .networkError _ w => some w
  | _ => none

/-- `errors.Is(e, target)`: walks the unwrap chain looking for the
target sentinel (identity comparison). Only `NetworkError` unwraps. -/
def errorsIs (target : GoError) : GoError → Bool
  | .networkError op w =>
    if GoError.networkError op w = target then true else errorsIs target w
  | e => decide (e = target)

/-- `errors.As(e, &T)` for a target type recognised by the top-level
predicate `p`: walks the unwrap chain looking for a value of that type. -/
def errorsAs (p : GoError → Bool) : GoError → Bool
  | .networkError op w => p (.networkError op w) || errorsAs p w
  | e => p e

/-- Dynamic-type test for `*NetworkError`. -/
def isNetworkErrorTop : GoError → Bool
  | .networkError _ _ => true
  | .networkErrorNil _ => true
  | _ => false

/-- Dynamic-type test for `*SOAPFault`. -/
def isSOAPFaultTop : GoError → Bool
  | .soapFault _ _ _ => true
  | _ => false

/-- Dynamic-type test for `*APIError`. -/
def isAPIErrorTop : GoError → Bool
  | .apiError _ _ _ => true
  | _ => false

/-- `IsRetryable` from errors.go: nil is not retryable; network errors,
`ErrRateLimited` and `ErrTimeout` are retryable; SOAP faults, API errors
and everything else are not. -/
def IsRetryable (err : Option GoError) : Bool :=
  match err with
  | none => false
  | some e =>
    if errorsAs isNetworkErrorTop e then true
    else if errorsIs GoError.errRateLimited e then true
    else if errorsIs GoError.errTimeout e then true
    else if errorsAs isSOAPFaultTop e then false
    else if errorsAs isAPIErrorTop e then false
    else false

example : IsRetryable (some (.networkErrorNil "dial")) = true := by decide
example : IsRetryable (some .errRateLimited) = true := by decide
example : IsRetryable (some (.soapFault "c" "s" "d")) = false := by decide
example : IsRetryable none = false := by decide
example : IsRetryable (some (.errorNew "boom")) = false := by decide
example : IsRetryable (some (.networkError "op" (.soapFault "c" "s" "d"))) = true := by
  decide

/-! ## Retryer (middleware/retry.go) -/

/-- `RetryConfig` from middleware/retry.go.  Durations are rationals
counted in nanoseconds (`time.Duration` units); `maxRetries` keeps its
Go type `int` (so pathological negative values behave as in the source);
`shouldRetry = none` models a nil `ShouldRetry` function field. -/
structure RetryConfig where
  maxRetries : ℤ
  baseDelay : ℚ
  maxDelay : ℚ
  multiplier : ℚ
  jitter : ℚ
  shouldRetry : Option (GoError → Bool)

/-- `time.Second` in nanoseconds. -/
def timeSecond : ℚ := 1000000000

/-- `time.Millisecond` in nanoseconds. -/
def timeMillisecond : ℚ := 1000000

/-- `NewRetryer` from middleware/retry.go: self-clamping of the
configuration (defaults 3 retries, 1s base, 30s cap, ×2 multiplier,
jitter clamped into [0,1]). -/
def NewRetryer (config : RetryConfig) : RetryConfig :=
  let c := if config.maxRetries ≤ 0 then { config with maxRetries := 3 } else config
  let c := if c.baseDelay ≤ 0 then { c with baseDelay := timeSecond } else c
  let c := if c.maxDelay ≤ 0 then { c with maxDelay := 30 * timeSecond } else c
  let c := if c.multiplier ≤ 0 then { c with multiplier := 2 } else c
  let c := if c.jitter < 0 then { c with jitter := 0 } else c
  if c.jitter > 1 then { c with jitter := 1 } else c

/-- `calculateDelay` from middleware/retry.go, with the single
`rand.Float64()` draw `u` made explicit: exponential delay
`baseDelay * multiplier^attempt`, then jitter (when `Jitter > 0`), then
the cap at `MaxDelay`.  Note the source caps AFTER applying jitter. -/
def calculateDelay (r : RetryConfig) (attempt : ℕ) (u : ℚ) : ℚ :=
  let delay := r.baseDelay * r.multiplier ^ attempt
  let delay1 :=
    if r.jitter > 0 then
      delay - delay * r.jitter + u * 2 * (delay * r.jitter)
    else delay
  if delay1 > r.maxDelay then r.maxDelay else delay1

/-- The retry predicate actually applied by `Do`/`DoWithResult`:
`ShouldRetry != nil && !ShouldRetry(err)` causes an immediate return,
i.e. the attempt is retried unless a configured predicate rejects it. -/
def retryableBy (r : RetryConfig) (e : GoError) : Bool :=
  match r.shouldRetry with
  | some p => p e
  | none => true

/-- Outcome of a run of `Retryer.Do`: the returned error (`none` =
success) and the number of times the operation was invoked. -/
structure DoRun where
  err : Option GoError
  calls : ℕ
deriving DecidableEq, Repr

/-- The loop of `Retryer.Do` (middleware/retry.go lines 78-113).  The
first argument counts the iterations still permitted by the loop
condition `attempt <= MaxRetries`; `attempt` is the Go loop index
(which also equals the number of operation invocations so far, since
every iteration starts by calling `fn`); `now` is the current time and
the last argument the running `lastErr`.  An iteration: call
`fn attempt`; on success return nil; on a non-retryable error return
it; when `attempt == MaxRetries` break (returning `lastErr`, which at
that point is this iteration's error); otherwise sleep
`calculateDelay(attempt)` in a select against `ctx.Done()`, returning
`ctx.Err()` if the context cancels at or before the timer fires. -/
def doAux (r : RetryConfig) (cancelledAt : Option ℚ) (us : ℕ → ℚ)
    (fn : ℕ → Option GoError) : ℕ → ℕ → ℚ → Option GoError → DoRun
  | 0, attempt, _, lastErr => ⟨lastErr, attempt⟩
  | remaining + 1, attempt, now, _ =>
    match fn attempt with
    | none => ⟨none, attempt + 1⟩
    | some err =>
      if !retryableBy r err then ⟨some err, attempt + 1⟩
      else if remaining = 0 then ⟨some err, attempt + 1⟩
      else
        let delay := calculateDelay r attempt (us attempt)
        match cancelledAt with
        | some ca =>
          if ca ≤ now ∨ ca < now + delay then ⟨some .contextCanceled, attempt + 1⟩
          else doAux r cancelledAt us fn remaining (attempt + 1) (now + delay) (some err)
        | none => doAux r cancelledAt us fn remaining (attempt + 1) (now + delay) (some err)

/-- `Retryer.Do`: run the loop for attempts `0 .. MaxRetries` starting
with `lastErr = nil`. -/
def Do (r : RetryConfig) (cancelledAt : Option ℚ) (us : ℕ → ℚ)
    (fn : ℕ → Option GoError) (start : ℚ) : DoRun :=
  doAux r cancelledAt us fn (1 + r.maxRetries).toNat 0 start none

/-- Outcome of a run of `DoWithResult`: the returned `result` variable
(`none` is the zero value of the pointer-typed results used in this
repository), the returned error and the number of operation calls. -/
structure DoResultRun (α : Type) where
  value : Option α
  err : Option GoError
  calls : ℕ
  endTime : ℚ
deriving DecidableEq, Repr

/-- The loop of `DoWithResult` (middleware/retry.go lines 116-147),
identical to `doAux` except that each call also produces a value which
is kept in the `result` variable and returned on every exit path. -/
def doWithResultAux {α : Type} (r : RetryConfig) (cancelledAt : Option ℚ) (us : ℕ → ℚ)
    (fn : ℕ → Option α × Option GoError) :
    ℕ → ℕ → ℚ → Option α → Option GoError → DoResultRun α
  | 0, attempt, now, result, lastErr => ⟨result, lastErr, attempt, now⟩
  | remaining + 1, attempt, now, _, _ =>
    match fn attempt with
    | (v, none) => ⟨v, none, attempt + 1, now⟩
    | (v, some err) =>
      if !retryableBy r err then ⟨v, some err, attempt + 1, now⟩
      else if remaining = 0 then ⟨v, some err, attempt + 1, now⟩
      else
        let delay := calculateDelay r attempt (us attempt)
        match cancelledAt with
        | some ca =>
          if ca ≤ now ∨ ca < now + delay then
            ⟨v, some .contextCanceled, attempt + 1, if ca ≤ now then now else ca⟩
          else
            doWithResultAux r cancelledAt us fn remaining (attempt + 1) (now + delay) v (some err)
        | none =>
          doWithResultAux r cancelledAt us fn remaining (attempt + 1) (now + delay) v (some err)

/-- `DoWithResult` entry point: `result` starts at the zero value and
`lastErr` at nil. -/
def DoWithResult {α : Type} (r : RetryConfig) (cancelledAt : Option ℚ) (us : ℕ → ℚ)
    (fn : ℕ → Option α × Option GoError) (start : ℚ) : DoResultRun α :=
  doWithResultAux r cancelledAt us fn (1 + r.maxRetries).toNat 0 start none none

/-! ## RateLimiter (middleware/ratelimit.go) -/

/-- The `RateLimiter` struct: rate (tokens/second), bucket size (burst
capacity), current tokens and the last refill instant.  The mutex is
dropped; time is threaded explicitly. -/
structure RateLimiter where
  rate : ℚ
  bucketSize : ℚ
  tokens : ℚ
  lastUpdate : ℚ
deriving DecidableEq, Repr

/-- `NewRateLimiterWithBurst`: starts with a full bucket. -/
def NewRateLimiterWithBurst (requestsPerSecond burstCapacity now : ℚ) : RateLimiter :=
  ⟨requestsPerSecond, burstCapacity, burstCapacity, now⟩

/-- `NewRateLimiter`: burst capacity defaults to the rate. -/
def NewRateLimiter (requestsPerSecond now : ℚ) : RateLimiter :=
  NewRateLimiterWithBurst requestsPerSecond requestsPerSecond now

/-- `refillTokens`: add `elapsed * rate` tokens and cap at the bucket
size. -/
def refillTokens (r : RateLimiter) (now : ℚ) : RateLimiter :=
  let t := r.tokens + (now - r.lastUpdate) * r.rate
  { r with tokens := if t > r.bucketSize then r.bucketSize else t, lastUpdate := now }

/-- `TryAcquire`: refill, then take one token iff at least one is
available. -/
def TryAcquire (r : RateLimiter) (now : ℚ) : Bool × RateLimiter :=
  let r1 := refillTokens r now
  if r1.tokens ≥ 1 then (true, { r1 with tokens := r1.tokens - 1 }) else (false, r1)

/-- `timeUntilNextToken`: seconds needed to accumulate one token, zero
if one is already available. -/
def timeUntilNextToken (r : RateLimiter) : ℚ :=
  if r.tokens ≥ 1 then 0 else (1 - r.tokens) / r.rate

/-- `Available`: refill, then report the current tokens. -/
def Available (r : RateLimiter) (now : ℚ) : ℚ × RateLimiter :=
  let r1 := refillTokens r now
  (r1.tokens, r1)

/-- Outcome of a run of `RateLimiter.Wait`: the returned error (`none`
= token acquired), the limiter state and the time at which `Wait`
returned. -/
structure WaitRun where
  err : Option GoError
  limiter : RateLimiter
  endTime : ℚ
deriving DecidableEq, Repr

/-- One iteration of the loop of `RateLimiter.Wait`
(middleware/ratelimit.go lines 36-52): `TryAcquire`; on failure compute
`timeUntilNextToken` and select between `ctx.Done()` and the timer —
the context branch wins when the context is already cancelled or
cancels strictly before the timer fires; otherwise the loop continues
at the timer's fire time (`Sum.inr`). -/
def waitStep (cancelledAt : Option ℚ) (r : RateLimiter) (now : ℚ) :
    WaitRun ⊕ (RateLimiter × ℚ) :=
  match TryAcquire r now with
  | (true, r1) => Sum.inl ⟨none, r1, now⟩
  | (false, r1) =>
    let w := timeUntilNextToken r1
    match cancelledAt with
    | some ca =>
      if ca ≤ now ∨ ca < now + w then
        Sum.inl ⟨some .contextCanceled, r1, if ca ≤ now then now else ca⟩
      else Sum.inr (r1, now + w)
    | none => Sum.inr (r1, now + w)

/-- The loop of `RateLimiter.Wait`: iterate `waitStep`.  `fuel` bounds
the number of loop iterations; `none` means the Go code would still be
looping/blocking after that many iterations. -/
def WaitAux (cancelledAt : Option ℚ) : ℕ → RateLimiter → ℚ → Option WaitRun
  | 0, _, _ => none
  | fuel + 1, r, now =>
    match waitStep cancelledAt r now with
    | Sum.inl out => some out
    | Sum.inr (r1, t1) => WaitAux cancelledAt fuel r1 t1

/-- Unfolding lemma for one `Wait` loop iteration. -/
theorem WaitAux_succ (cancelledAt : Option ℚ) (fuel : ℕ) (r : RateLimiter) (now : ℚ) :
    WaitAux cancelledAt (fuel + 1) r now =
      match waitStep cancelledAt r now with
      | Sum.inl out => some out
      | Sum.inr (r1, t1) => WaitAux cancelledAt fuel r1 t1 := rfl

/-- `RateLimiter.Wait` with a fuel bound on loop iterations. -/
def Wait (cancelledAt : Option ℚ) (fuel : ℕ) (r : RateLimiter) (now : ℚ) : Option WaitRun :=
  WaitAux cancelledAt fuel r now

/-! ## Cache (middleware/cache.go) -/

/-- Concrete universe of values stored in the `interface{}`-typed
cache: the `[]*Category` slices stored by `GetCategories` (abstracted
to their payload), plus strings and integers to stand for the other
dynamic types a caller could store. -/
inductive CVal where
  | categories (v : ℕ)
  | str (s : String)
  | num (n : ℤ)
deriving DecidableEq, Repr

/-- `CacheEntry`: the stored `interface{}` value (`none` = nil
interface) and the expiration instant. -/
structure CacheEntry where
  value : Option CVal
  expiration : ℚ
deriving DecidableEq, Repr

/-- `CacheEntry.IsExpired`: `time.Now().After(e.Expiration)` — strictly
after. -/
def CacheEntry.IsExpired (e : CacheEntry) (now : ℚ) : Bool :=
  now > e.expiration

/-- The `Cache` struct: default TTL and the entry map, modelled as an
association list with at most one binding per key. -/
structure Cache where
  defaultTTL : ℚ
  entries : List (String × CacheEntry)
deriving DecidableEq, Repr

/-- Go map lookup `c.entries[key]`. -/
def mapLookup (entries : List (String × CacheEntry)) (key : String) : Option CacheEntry :=
  (entries.find? fun p => p.1 == key).map Prod.snd

/-- `Cache.Delete`: Go map `delete(c.entries, key)`. -/
def Cache.Delete (c : Cache) (key : String) : Cache :=
  { c with entries := c.entries.filter fun p => !(p.1 == key) }

/-- `Cache.Get` (middleware/cache.go lines 47-63): lookup; absent ⇒
`(nil, false)`; expired ⇒ lazy `Delete` then `(nil, false)`; otherwise
`(entry.Value, true)`. -/
def Cache.Get (c : Cache) (key : String) (now : ℚ) : Option CVal × Bool × Cache :=
  match mapLookup c.entries key with
  | none => (none, false, c)
  | some e => if e.IsExpired now then (none, false, c.Delete key) else (e.value, true, c)

/-- `Cache.SetWithTTL`: unconditionally overwrite the binding for the
key with expiration `now + ttl`. -/
def Cache.SetWithTTL (c : Cache) (key : String) (v : Option CVal) (ttl now : ℚ) : Cache :=
  { c with entries := (key, ⟨v, now + ttl⟩) :: c.entries.filter fun p => !(p.1 == key) }

/-- `Cache.Set`: store with the cache's default TTL. -/
def Cache.Set (c : Cache) (key : String) (v : Option CVal) (now : ℚ) : Cache :=
  c.SetWithTTL key v c.defaultTTL now

/-- `GetTyped[T]` (middleware/cache.go lines 66-79), parametrised by
the type assertion `value.(T)` of the target type `T`: `asT` returns
`some` exactly on values whose dynamic type is `T` (a nil interface
never has dynamic type `T`).  Returns the zero value of `T` (modelled
`none`) with `false` when the key misses or the assertion fails. -/
def GetTyped {α : Type} (asT : CVal → Option α) (c : Cache) (key : String) (now : ℚ) :
    Option α × Bool × Cache :=
  match c.Get key now with
  | (value, true, c1) =>
    match value with
    | some v =>
      match asT v with
      | some typed => (some typed, true, c1)
      | none => (none, false, c1)
    | none => (none, false, c1)
  | (_, false, c1) => (none, false, c1)

/-- Outcome of a run of `Cache.GetOrSet`: returned value, returned
error, resulting cache, and how many times the compute function ran. -/
structure GetOrSetRun where
  value : Option CVal
  err : Option GoError
  cache : Cache
  fnCalls : ℕ
deriving DecidableEq, Repr

/-- `Cache.GetOrSet` (middleware/cache.go lines 163-179): `Get`; on a
hit return the cached value; otherwise run `fn` (whose outcome is the
`fnRes` argument), propagate its error without storing, or `Set` the
computed value and return it. -/
def Cache.GetOrSet (c : Cache) (key : String) (now : ℚ)
    (fnRes : Option CVal × Option GoError) : GetOrSetRun :=
  match c.Get key now with
  | (v, true, c1) => ⟨v, none, c1, 0⟩
  | (_, false, c1) =>
    match fnRes with
    | (_, some e) => ⟨none, some e, c1, 1⟩
    | (v, none) => ⟨v, none, c1.Set key v now, 1⟩

/-! ## Dispatcher composition (tradera.go, public_client.go) -/

/-- The middleware-relevant part of the `Client` struct: each of the
three middlewares is independently optional (nil when not configured). -/
structure ClientState where
  rateLimiter : Option RateLimiter
  retryer : Option RetryConfig
  cache : Option Cache

/-- Outcome of `executeWithMiddlewareResult`: returned value and error,
the rate limiter state afterwards, the time at which the call returned,
and instrumentation counters (calls to `Wait`, to `DoWithResult`, and
to the wrapped operation). -/
structure ExecRun (α : Type) where
  value : Option α
  err : Option GoError
  rateLimiter : Option RateLimiter
  endTime : ℚ
  waitCalls : ℕ
  retryCalls : ℕ
  opCalls : ℕ

/-- `executeWithMiddlewareResult` (tradera.go lines 235-251): rate
limit first (an error from `Wait` returns immediately, zero operation
calls), then either retry via `DoWithResult` or a single direct call.
`none` = the rate limiter's `Wait` exhausted its fuel. -/
def executeWithMiddlewareResult {α : Type} (c : ClientState) (cancelledAt : Option ℚ)
    (fuel : ℕ) (us : ℕ → ℚ) (fn : ℕ → Option α × Option GoError) (now : ℚ) :
    Option (ExecRun α) :=
  let afterWait : Option RateLimiter → ℚ → ℕ → ExecRun α := fun rl t w =>
    match c.retryer with
    | some cfg =>
      let d := DoWithResult cfg cancelledAt us fn t
      ⟨d.value, d.err, rl, d.endTime, w, 1, d.calls⟩
    | none =>
      match fn 0 with
      | (v, e) => ⟨v, e, rl, t, w, 0, 1⟩
  match c.rateLimiter with
  | some rl =>
    match WaitAux cancelledAt fuel rl now with
    | none => none
    | some ⟨some e, rl1, t1⟩ => some ⟨none, some e, some rl1, t1, 1, 0, 0⟩
    | some ⟨none, rl1, t1⟩ => some (afterWait (some rl1) t1 1)
  | none => some (afterWait none now 0)

/-- Outcome of `PublicClient.GetCategories`: returned category payload
(`none` = nil slice/error path), returned error, client state after the
call, and the same instrumentation counters as `ExecRun`. -/
structure GetCategoriesRun where
  categories : Option ℕ
  err : Option GoError
  client : ClientState
  waitCalls : ℕ
  retryCalls : ℕ
  opCalls : ℕ

/-- A `GetCategories` call either returns, panics (failed
`cached.([]*Category)` assertion or nil response dereference), or the
model ran out of `Wait` fuel while the Go code would still block. -/
inductive GetCategoriesOut where
  | ran (r : GetCategoriesRun)
  | panicked
  | outOfFuel

/-- The post-cache-miss part of `GetCategories`: run the middleware
composition, propagate errors, and on success store the converted
result in the cache (when one is configured) before returning it.  The
DTO conversion (`convertCategories`) is mechanical and out of scope, so
the remote operation `fn` directly yields the category payload. -/
def GetCategoriesMiss (c : ClientState) (cancelledAt : Option ℚ) (fuel : ℕ) (us : ℕ → ℚ)
    (fn : ℕ → Option ℕ × Option GoError) (now : ℚ) : GetCategoriesOut :=
  match executeWithMiddlewareResult c cancelledAt fuel us fn now with
  | none => .outOfFuel
  | some ex =>
    let c1 : ClientState := { c with rateLimiter := ex.rateLimiter }
    match ex.err with
    | some e => .ran ⟨none, some e, c1, ex.waitCalls, ex.retryCalls, ex.opCalls⟩
    | none =>
      match ex.value with
      | none => .panicked
      | some v =>
        let c2 : ClientState :=
          match c1.cache with
          | some cache =>
            { c1 with cache := some (cache.Set "categories" (some (.categories v)) ex.endTime) }
          | none => c1
        .ran ⟨some v, none, c2, ex.waitCalls, ex.retryCalls, ex.opCalls⟩

/-- `PublicClient.GetCategories` (public_client.go lines 149-172):
check the cache under the key "categories" first; a fresh hit is
returned at once via the `cached.([]*Category)` assertion; otherwise
fall through to the middleware composition and store the result. -/
def GetCategories (c : ClientState) (cancelledAt : Option ℚ) (fuel : ℕ) (us : ℕ → ℚ)
    (fn : ℕ → Option ℕ × Option GoError) (now : ℚ) : GetCategoriesOut :=
  match c.cache with
  | some cache =>
    match cache.Get "categories" now with
    | (cached, true, c1) =>
      match cached with
      | some (CVal.categories v) =>
        .ran ⟨some v, none, { c with cache := some c1 }, 0, 0, 0⟩
      | _ => .panicked
    | (_, false, c1) =>
      GetCategoriesMiss { c with cache := some c1 } cancelledAt fuel us fn now
  | none => GetCategoriesMiss c cancelledAt fuel us fn now

/-! ## Theorems -/

/-- C4: `IsRetryable` is a pure function on error values satisfying the
classification table: it returns true for a `NetworkError` (wrapping a
nil or non-nil error), for `ErrRateLimited`, and for `ErrTimeout`; it
returns false for a `SOAPFault`, for an `APIError`, for nil, and for
every other error value. -/
theorem c4_isRetryable_classification : ∀ e : Option GoError,
    IsRetryable e =
      match e with
      | some (GoError.networkError _ _) => true
      | some (GoError.networkErrorNil _) => true
      | some GoError.errRateLimited => true
      | some GoError.errTimeout => true
      | _ => false := by
  rintro (_ | e)
  · rfl
  · cases e <;>
      simp [IsRetryable, errorsAs, errorsIs, isNetworkErrorTop, isSOAPFaultTop, isAPIErrorTop]

/-- C9: with BaseDelay = 100ms, Multiplier = 2, MaxDelay = 1s and
Jitter = 0, `calculateDelay` returns exactly 100ms, 200ms, 400ms, 800ms
and 1000ms for attempts 0 through 4 (the unclamped 1600ms of attempt 4
is capped at MaxDelay), whatever the unused random draw is. -/
theorem c9_backoff_growth : ∀ u : ℚ,
    calculateDelay ⟨3, 100 * timeMillisecond, timeSecond, 2, 0, none⟩ 0 u
        = 100 * timeMillisecond ∧
    calculateDelay ⟨3, 100 * timeMillisecond, timeSecond, 2, 0, none⟩ 1 u
        = 200 * timeMillisecond ∧
    calculateDelay ⟨3, 100 * timeMillisecond, timeSecond, 2, 0, none⟩ 2 u
        = 400 * timeMillisecond ∧
    calculateDelay ⟨3, 100 * timeMillisecond, timeSecond, 2, 0, none⟩ 3 u
        = 800 * timeMillisecond ∧
    calculateDelay ⟨3, 100 * timeMillisecond, timeSecond, 2, 0, none⟩ 4 u
        = 1000 * timeMillisecond := by
  intro u
  norm_num [calculateDelay, timeMillisecond, timeSecond]

/-- C2: for every configuration satisfying the bounds `NewRetryer`
establishes (positive base delay, cap and multiplier, jitter in [0,1])
and every attempt `n` and jitter draw `u ∈ [0,1)`, the delay computed
by `calculateDelay` equals `min(maxDelay, baseDelay * multiplier^n)`
perturbed by a noise fraction `j ∈ [-jitter, +jitter]` of that clamped
value, floored at zero. -/
theorem c2_calculateDelay_clamped_jitter (r : RetryConfig) (n : ℕ) (u : ℚ)
    (hbase : 0 < r.baseDelay) (hmax : 0 < r.maxDelay) (hmult : 0 < r.multiplier)
    (hj0 : 0 ≤ r.jitter) (hj1 : r.jitter ≤ 1) (hu0 : 0 ≤ u) (hu1 : u < 1) :
    ∃ j : ℚ, -r.jitter ≤ j ∧ j ≤ r.jitter ∧
      calculateDelay r n u =
        max 0 (min r.maxDelay (r.baseDelay * r.multiplier ^ n) * (1 + j)) := by
  have hraw : 0 < r.baseDelay * r.multiplier ^ n := mul_pos hbase (pow_pos hmult n)
  by_cases hjp : r.jitter > 0
  · have hcd : calculateDelay r n u =
        if r.baseDelay * r.multiplier ^ n
              - r.baseDelay * r.multiplier ^ n * r.jitter
              + u * 2 * (r.baseDelay * r.multiplier ^ n * r.jitter)
            > r.maxDelay
        then r.maxDelay
        else r.baseDelay * r.multiplier ^ n
              - r.baseDelay * r.multiplier ^ n * r.jitter
              + u * 2 * (r.baseDelay * r.multiplier ^ n * r.jitter) := by
      simp only [calculateDelay, if_pos hjp]
    by_cases hcap : r.baseDelay * r.multiplier ^ n
        - r.baseDelay * r.multiplier ^ n * r.jitter
        + u * 2 * (r.baseDelay * r.multiplier ^ n * r.jitter) > r.maxDelay
    · rw [if_pos hcap] at hcd
      by_cases hrm : r.baseDelay * r.multiplier ^ n ≤ r.maxDelay
      · refine ⟨r.maxDelay / (r.baseDelay * r.multiplier ^ n) - 1, ?_, ?_, ?_⟩
        · have h1 : (1 : ℚ) ≤ r.maxDelay / (r.baseDelay * r.multiplier ^ n) :=
            (one_le_div hraw).mpr hrm
          linarith
        · have h2 : r.maxDelay / (r.baseDelay * r.multiplier ^ n)
              < 1 - r.jitter + u * 2 * r.jitter := by
            rw [div_lt_iff hraw]
            nlinarith
          nlinarith [mul_nonneg hj0 (by linarith : (0 : ℚ) ≤ 2 - 2 * u)]
        · rw [hcd, min_eq_right hrm]
          have h3 : r.baseDelay * r.multiplier ^ n
              * (1 + (r.maxDelay / (r.baseDelay * r.multiplier ^ n) - 1)) = r.maxDelay := by
            field_simp
          rw [h3, max_eq_right hmax.le]
      · refine ⟨0, by linarith, by linarith, ?_⟩
        rw [hcd, min_eq_left (by linarith : r.maxDelay ≤ r.baseDelay * r.multiplier ^ n)]
        rw [add_zero, mul_one, max_eq_right hmax.le]
    · rw [if_neg hcap] at hcd
      push_neg at hcap
      have hd0 : 0 ≤ r.baseDelay * r.multiplier ^ n
          - r.baseDelay * r.multiplier ^ n * r.jitter
          + u * 2 * (r.baseDelay * r.multiplier ^ n * r.jitter) := by
        nlinarith [mul_nonneg (mul_nonneg hu0 hraw.le) hj0,
          mul_nonneg hraw.le (by linarith : (0 : ℚ) ≤ 1 - r.jitter)]
      by_cases hrm : r.baseDelay * r.multiplier ^ n ≤ r.maxDelay
      · refine ⟨r.jitter * (2 * u - 1), ?_, ?_, ?_⟩
        · nlinarith [mul_nonneg hj0 hu0]
        · nlinarith [mul_nonneg hj0 (by linarith : (0 : ℚ) ≤ 2 - 2 * u)]
        · rw [hcd, min_eq_right hrm, max_eq_right]
          · ring
          · nlinarith
      · push_neg at hrm
        refine ⟨(r.baseDelay * r.multiplier ^ n
            - r.baseDelay * r.multiplier ^ n * r.jitter
            + u * 2 * (r.baseDelay * r.multiplier ^ n * r.jitter)) / r.maxDelay - 1,
            ?_, ?_, ?_⟩
        · have h4 : r.maxDelay * (1 - r.jitter) ≤ r.baseDelay * r.multiplier ^ n
              - r.baseDelay * r.multiplier ^ n * r.jitter
              + u * 2 * (r.baseDelay * r.multiplier ^ n * r.jitter) := by
            nlinarith [mul_nonneg (mul_nonneg hu0 hraw.le) hj0,
              mul_nonneg (by linarith : (0 : ℚ) ≤ r.baseDelay * r.multiplier ^ n - r.maxDelay)
                (by linarith : (0 : ℚ) ≤ 1 - r.jitter)]
          have h5 : 1 - r.jitter ≤ (r.baseDelay * r.multiplier ^ n
              - r.baseDelay * r.multiplier ^ n * r.jitter
              + u * 2 * (r.baseDelay * r.multiplier ^ n * r.jitter)) / r.maxDelay := by
            rw [le_div_iff hmax]
            linarith
          linarith
        · have h6 : (r.baseDelay * r.multiplier ^ n
              - r.baseDelay * r.multiplier ^ n * r.jitter
              + u * 2 * (r.baseDelay * r.multiplier ^ n * r.jitter)) / r.maxDelay ≤ 1 :=
            (div_le_one hmax).mpr hcap
          linarith
        · rw [hcd, min_eq_left hrm.le, max_eq_right]
          · field_simp
          · have h7 : 0 ≤ (r.baseDelay * r.multiplier ^ n
                - r.baseDelay * r.multiplier ^ n * r.jitter
                + u * 2 * (r.baseDelay * r.multiplier ^ n * r.jitter)) / r.maxDelay :=
              div_nonneg hd0 hmax.le
            nlinarith
  · have hcd : calculateDelay r n u =
        if r.baseDelay * r.multiplier ^ n > r.maxDelay
        then r.maxDelay
        else r.baseDelay * r.multiplier ^ n := by
      simp only [calculateDelay, if_neg hjp]
    refine ⟨0, by linarith, by linarith, ?_⟩
    rw [hcd, add_zero, mul_one]
    by_cases hrm : r.baseDelay * r.multiplier ^ n > r.maxDelay
    · rw [if_pos hrm, min_eq_left hrm.le, max_eq_right hmax.le]
    · push_neg at hrm
      rw [if_neg (not_lt.mpr hrm), min_eq_right hrm, max_eq_right hraw.le]

/-- Witness for C2: the clamped-and-jittered delay shape at a concrete
configuration, attempt and draw. -/
theorem c2_calculateDelay_clamped_jitter_witness :
    (0 : ℚ) < (RetryConfig.mk 3 1 1 2 (1/2) none).baseDelay ∧
    (0 : ℚ) < (RetryConfig.mk 3 1 1 2 (1/2) none).maxDelay ∧
    (0 : ℚ) < (RetryConfig.mk 3 1 1 2 (1/2) none).multiplier ∧
    (0 : ℚ) ≤ (RetryConfig.mk 3 1 1 2 (1/2) none).jitter ∧
    (RetryConfig.mk 3 1 1 2 (1/2) none).jitter ≤ 1 ∧
    (0 : ℚ) ≤ (1/2 : ℚ) ∧ (1/2 : ℚ) < 1 ∧
    (∃ j : ℚ, -(RetryConfig.mk 3 1 1 2 (1/2) none).jitter ≤ j ∧
      j ≤ (RetryConfig.mk 3 1 1 2 (1/2) none).jitter ∧
      calculateDelay (RetryConfig.mk 3 1 1 2 (1/2) none) 1 (1/2) =
        max 0 (min (RetryConfig.mk 3 1 1 2 (1/2) none).maxDelay
          ((RetryConfig.mk 3 1 1 2 (1/2) none).baseDelay
            * (RetryConfig.mk 3 1 1 2 (1/2) none).multiplier ^ 1) * (1 + j))) :=
  ⟨by norm_num, by norm_num, by norm_num, by norm_num, by norm_num, by norm_num, by norm_num,
    c2_calculateDelay_clamped_jitter (RetryConfig.mk 3 1 1 2 (1/2) none) 1 (1/2)
      (by norm_num) (by norm_num) (by norm_num) (by norm_num) (by norm_num)
      (by norm_num) (by norm_num)⟩

/-- Helper for C3: on a never-cancelled context, when every invocation
fails with an error the configuration retries, the `Do` loop runs all
remaining iterations and returns the error of the last one. -/
theorem doAux_all_retryable (r : RetryConfig) (us : ℕ → ℚ) (fn : ℕ → Option GoError)
    (h : ∀ m, ∃ e, fn m = some e ∧ retryableBy r e = true) :
    ∀ k attempt now lastErr, ∃ e, fn (attempt + k) = some e ∧
      doAux r none us fn (k + 1) attempt now lastErr = ⟨some e, attempt + k + 1⟩ := by
  intro k
  induction k with
  | zero =>
    intro attempt now lastErr
    obtain ⟨e, he, hr⟩ := h attempt
    exact ⟨e, by simpa using he, by simp [doAux, he, hr]⟩
  | succ k ih =>
    intro attempt now lastErr
    obtain ⟨e, he, hr⟩ := h attempt
    obtain ⟨e2, he2, hd⟩ :=
      ih (attempt + 1) (now + calculateDelay r attempt (us attempt)) (some e)
    refine ⟨e2, ?_, ?_⟩
    · rw [show attempt + (k + 1) = attempt + 1 + k by omega]
      exact he2
    · have hrec : doAux r none us fn (k + 1 + 1) attempt now lastErr =
          doAux r none us fn (k + 1) (attempt + 1)
            (now + calculateDelay r attempt (us attempt)) (some e) := by
        simp [doAux, he, hr]
      rw [hrec, hd]
      congr 1
      omega

/-- C3: on an uncancelled context, an operation failing only with
non-retryable errors is invoked exactly once and its error returned,
while an operation failing only with retryable errors is invoked
exactly `MaxRetries + 1` times and the final invocation's error is
returned. -/
theorem c3_do_retry_policy (r : RetryConfig) (p : GoError → Bool) (us : ℕ → ℚ)
    (fn : ℕ → Option GoError) (start : ℚ) (hp : r.shouldRetry = some p)
    (hmr : 0 ≤ r.maxRetries) :
    ((∀ m, ∃ e, fn m = some e ∧ p e = false) →
      ∃ e0, fn 0 = some e0 ∧ Do r none us fn start = ⟨some e0, 1⟩) ∧
    ((∀ m, ∃ e, fn m = some e ∧ p e = true) →
      ∃ elast, fn r.maxRetries.toNat = some elast ∧
        Do r none us fn start = ⟨some elast, r.maxRetries.toNat + 1⟩) := by
  have hfuel : (1 + r.maxRetries).toNat = r.maxRetries.toNat + 1 := by omega
  constructor
  · intro h
    obtain ⟨e0, he0, hpe⟩ := h 0
    refine ⟨e0, he0, ?_⟩
    unfold Do
    rw [hfuel]
    simp [doAux, he0, retryableBy, hp, hpe]
  · intro h
    have h2 : ∀ m, ∃ e, fn m = some e ∧ retryableBy r e = true := by
      intro m
      obtain ⟨e, he, hpe⟩ := h m
      exact ⟨e, he, by simp [retryableBy, hp, hpe]⟩
    obtain ⟨e2, he2, hd⟩ := doAux_all_retryable r us fn h2 r.maxRetries.toNat 0 start none
    refine ⟨e2, by simpa using he2, ?_⟩
    unfold Do
    rw [hfuel, hd]
    congr 1
    omega

/-- Witness for C3: a concrete configuration with an always-failing
non-retryable operation is invoked exactly once. -/
theorem c3_do_retry_policy_witness :
    ∃ e0, (fun _ : ℕ => some (GoError.soapFault "soap:Client" "bad request" "")) 0 = some e0 ∧
      Do ⟨3, timeSecond, 30 * timeSecond, 2, 0, some (fun e => IsRetryable (some e))⟩
        none (fun _ => 0)
        (fun _ => some (GoError.soapFault "soap:Client" "bad request" "")) 0 = ⟨some e0, 1⟩ :=
  (c3_do_retry_policy
      ⟨3, timeSecond, 30 * timeSecond, 2, 0, some (fun e => IsRetryable (some e))⟩
      (fun e => IsRetryable (some e)) (fun _ => 0)
      (fun _ => some (GoError.soapFault "soap:Client" "bad request" "")) 0 rfl
      (by norm_num)).1
    (fun _ => ⟨GoError.soapFault "soap:Client" "bad request" "", rfl, by decide⟩)

/-- C1 counterexample: with a context cancelled at time 0, `Wait` on a
freshly constructed limiter (full bucket) acquires a token and returns
nil — not the cancellation error — and `Do` over an always-failing
retryable operation invokes it once, not zero times. -/
theorem c1_precancelled_counterexample :
    Wait (some 0) 1 (NewRateLimiter 1 0) 0 = some ⟨none, ⟨1, 1, 0, 0⟩, 0⟩ ∧
    (Do ⟨3, timeSecond, 30 * timeSecond, 2, 0, some (fun e => IsRetryable (some e))⟩
        (some 0) (fun _ => 0) (fun _ => some (GoError.networkErrorNil "dial")) 0).calls
      = 1 := by
  constructor
  · show WaitAux (some 0) (0 + 1) (NewRateLimiter 1 0) 0 = _
    rw [WaitAux_succ]
    norm_num [waitStep, TryAcquire, refillTokens, NewRateLimiter, NewRateLimiterWithBurst]
  · decide

/-- C1 amended: a pre-cancelled context does not pre-empt the first
token or the first attempt.  `Wait` returns nil when `TryAcquire`
succeeds, and the cancellation error (with no token consumed beyond
the failed refill) only when it does not; `Do` always invokes the
operation exactly once, returning nil on success, the error itself when
non-retryable, and the cancellation error instead of sleeping when the
error is retryable and retries remain. -/
theorem c1_precancelled_behaviour
    (rl : RateLimiter) (now ca : ℚ) (fuel : ℕ)
    (r : RetryConfig) (us : ℕ → ℚ) (fn : ℕ → Option GoError) (start : ℚ)
    (hca : ca ≤ now) (hca2 : ca ≤ start) (hmr : 0 < r.maxRetries) :
    (Wait (some ca) (fuel + 1) rl now =
      match TryAcquire rl now with
      | (true, rl1) => some ⟨none, rl1, now⟩
      | (false, rl1) => some ⟨some .contextCanceled, rl1, now⟩) ∧
    (Do r (some ca) us fn start).calls = 1 ∧
    (Do r (some ca) us fn start =
      match fn 0 with
      | none => ⟨none, 1⟩
      | some e => if retryableBy r e then ⟨some .contextCanceled, 1⟩ else ⟨some e, 1⟩) := by
  have hfuel : (1 + r.maxRetries).toNat = r.maxRetries.toNat + 1 := by omega
  have hmr0 : r.maxRetries.toNat ≠ 0 := by omega
  have hdo : Do r (some ca) us fn start =
      match fn 0 with
      | none => ⟨none, 1⟩
      | some e => if retryableBy r e then ⟨some .contextCanceled, 1⟩ else ⟨some e, 1⟩ := by
    unfold Do
    rw [hfuel]
    rcases hfn : fn 0 with _ | e
    · simp [doAux, hfn]
    · rcases hr : retryableBy r e with _ | _
      · simp [doAux, hfn, hr]
      · simp [doAux, hfn, hr, hmr0, hca2]
  refine ⟨?_, ?_, hdo⟩
  · show WaitAux (some ca) (fuel + 1) rl now = _
    rw [WaitAux_succ]
    rcases hTA : TryAcquire rl now with ⟨b, rl1⟩
    rcases b with _ | _
    · simp [waitStep, hTA, hca]
    · simp [waitStep, hTA]
  · rw [hdo]
    rcases fn 0 with _ | e
    · rfl
    · dsimp only
      split <;> rfl

/-- The bucket invariant `0 ≤ tokens ≤ capacity` from the spec's data
model. -/
def RateLimiter.inv (r : RateLimiter) : Prop :=
  0 ≤ r.tokens ∧ r.tokens ≤ r.bucketSize

/-- A back-to-back sequence of `n` `TryAcquire` calls at a single
instant: the final limiter state and the number of granted tokens. -/
def tryAcquireRun (now : ℚ) : ℕ → RateLimiter → RateLimiter × ℕ
  | 0, r => (r, 0)
  | n + 1, r =>
    let s := TryAcquire r now
    let rest := tryAcquireRun now n s.2
    (rest.1, (if s.1 then 1 else 0) + rest.2)

/-- Helper: `refillTokens` preserves the bucket invariant when the
clock does not run backwards and the rate is nonnegative. -/
theorem refillTokens_inv (r : RateLimiter) (now : ℚ) (h : r.inv) (hrate : 0 ≤ r.rate)
    (ht : r.lastUpdate ≤ now) : (refillTokens r now).inv := by
  obtain ⟨h0, h1⟩ := h
  have he : 0 ≤ (now - r.lastUpdate) * r.rate := mul_nonneg (by linarith) hrate
  unfold refillTokens RateLimiter.inv
  dsimp only
  split_ifs with hc
  · exact ⟨by linarith, le_refl _⟩
  · push_neg at hc
    exact ⟨by linarith, hc⟩

/-- Helper: `TryAcquire` preserves the bucket invariant. -/
theorem tryAcquire_inv (r : RateLimiter) (now : ℚ) (h : r.inv) (hrate : 0 ≤ r.rate)
    (ht : r.lastUpdate ≤ now) : (TryAcquire r now).2.inv := by
  obtain ⟨h10, h11⟩ := refillTokens_inv r now h hrate ht
  unfold TryAcquire
  dsimp only
  split_ifs with hc
  · refine ⟨?_, ?_⟩
    · show (0 : ℚ) ≤ (refillTokens r now).tokens - 1
      linarith
    · show (refillTokens r now).tokens - 1 ≤ (refillTokens r now).bucketSize
      linarith
  · exact ⟨h10, h11⟩

/-- Helper: with no elapsed time (`lastUpdate = now`) and the invariant
holding, `TryAcquire` reduces to a pure token decrement test. -/
theorem tryAcquire_now_eq (r : RateLimiter) (now : ℚ) (h1 : r.tokens ≤ r.bucketSize)
    (hl : r.lastUpdate = now) :
    TryAcquire r now =
      if r.tokens ≥ 1 then (true, ⟨r.rate, r.bucketSize, r.tokens - 1, now⟩)
      else (false, ⟨r.rate, r.bucketSize, r.tokens, now⟩) := by
  unfold TryAcquire refillTokens
  rw [hl]
  simp only [sub_self, zero_mul, add_zero, if_neg (not_lt.mpr h1)]

/-- Helper: at a single instant, the number of `TryAcquire` successes
is bounded by the tokens on hand. -/
theorem tryAcquireRun_count (now : ℚ) :
    ∀ n (r : RateLimiter), r.inv → r.lastUpdate = now →
      ((tryAcquireRun now n r).2 : ℚ) ≤ r.tokens := by
  intro n
  induction n with
  | zero =>
    intro r h hl
    simpa [tryAcquireRun] using h.1
  | succ n ih =>
    intro r h hl
    have hta := tryAcquire_now_eq r now h.2 hl
    by_cases hc : r.tokens ≥ 1
    · rw [if_pos hc] at hta
      have ha : (0 : ℚ) ≤ r.tokens - 1 := by linarith
      have hb : r.tokens - 1 ≤ r.bucketSize := by linarith [h.2]
      have hrest := ih ⟨r.rate, r.bucketSize, r.tokens - 1, now⟩ ⟨ha, hb⟩ rfl
      have hrest2 : ((tryAcquireRun now n ⟨r.rate, r.bucketSize, r.tokens - 1, now⟩).2 : ℚ)
          ≤ r.tokens - 1 := hrest
      simp only [tryAcquireRun, hta]
      push_cast
      linarith
    · rw [if_neg hc] at hta
      have hrest := ih ⟨r.rate, r.bucketSize, r.tokens, now⟩ ⟨h.1, h.2⟩ rfl
      have hrest2 : ((tryAcquireRun now n ⟨r.rate, r.bucketSize, r.tokens, now⟩).2 : ℚ)
          ≤ r.tokens := hrest
      simp only [tryAcquireRun, hta]
      push_cast
      linarith

/-- C6: the token bucket starts full (`tokens = capacity`), the
invariant `0 ≤ tokens ≤ capacity` holds after construction (for
nonnegative capacity) and is preserved by `refillTokens`, `TryAcquire`
and `Available` (for nonnegative rate and non-decreasing clock), and a
burst of `TryAcquire` calls with no elapsed time between them grants at
most `capacity` tokens. -/
theorem c6_token_bucket_invariant (rps b t0 : ℚ) (r : RateLimiter) (now : ℚ) (n : ℕ) :
    (NewRateLimiterWithBurst rps b t0).tokens = (NewRateLimiterWithBurst rps b t0).bucketSize ∧
    (0 ≤ b → (NewRateLimiterWithBurst rps b t0).inv) ∧
    (r.inv → 0 ≤ r.rate → r.lastUpdate ≤ now →
      (refillTokens r now).inv ∧ (TryAcquire r now).2.inv ∧ (Available r now).2.inv) ∧
    (r.inv → r.lastUpdate = now → ((tryAcquireRun now n r).2 : ℚ) ≤ r.bucketSize) :=
  ⟨rfl,
    fun hb => ⟨hb, le_refl _⟩,
    fun h hrate ht =>
      ⟨refillTokens_inv r now h hrate ht, tryAcquire_inv r now h hrate ht,
        refillTokens_inv r now h hrate ht⟩,
    fun h hl => le_trans (tryAcquireRun_count now n r h hl) h.2⟩

/-- Witness for C6: a unit-capacity bucket grants at most one token in
an instantaneous burst of three calls. -/
theorem c6_token_bucket_invariant_witness :
    (NewRateLimiterWithBurst 1 1 0).tokens = (NewRateLimiterWithBurst 1 1 0).bucketSize ∧
    (NewRateLimiterWithBurst 1 1 0).inv ∧
    (refillTokens ⟨1, 1, 1, 0⟩ 0).inv ∧
    ((tryAcquireRun 0 3 ⟨1, 1, 1, 0⟩).2 : ℚ) ≤ (RateLimiter.mk 1 1 1 0).bucketSize := by
  have h := c6_token_bucket_invariant 1 1 0 ⟨1, 1, 1, 0⟩ 0 3
  have hinv : RateLimiter.inv ⟨1, 1, 1, 0⟩ := ⟨by norm_num, by norm_num⟩
  exact ⟨h.1, h.2.1 (by norm_num), (h.2.2.1 hinv (by norm_num) (by norm_num)).1,
    h.2.2.2 hinv rfl⟩

/-- Helper: a key never survives the filter that implements map
deletion. -/
theorem mapLookup_filter_ne (key : String) (l : List (String × CacheEntry)) :
    mapLookup (l.filter fun p => !(p.1 == key)) key = none := by
  induction l with
  | nil => rfl
  | cons hd tl ih =>
    cases h2 : hd.1 == key with
    | true =>
      simp only [List.filter_cons, h2, Bool.not_true, Bool.false_eq_true, if_false]
      exact ih
    | false =>
      have h3 := ih
      simp only [mapLookup, List.filter_cons, h2] at h3 ⊢
      simp [List.find?_cons, h2]

/-- Helper: after `Delete`, the key is absent. -/
theorem mapLookup_delete (c : Cache) (key : String) :
    mapLookup (c.Delete key).entries key = none :=
  mapLookup_filter_ne key c.entries

/-- Helper: after `SetWithTTL`, the key maps to the fresh entry. -/
theorem mapLookup_set (c : Cache) (key : String) (v : Option CVal) (ttl now : ℚ) :
    mapLookup (c.SetWithTTL key v ttl now).entries key = some ⟨v, now + ttl⟩ := by
  simp [Cache.SetWithTTL, mapLookup, List.find?_cons]

/-- C7: `Cache.Get` finds a value iff an entry for the key exists whose
expiration has not passed; an existing expired entry is deleted by the
read, which returns not-found; consequently a value stored with a TTL
is returned while fresh and missed once the TTL has elapsed. -/
theorem c7_cache_get_lazy_expiry (c : Cache) (key : String) (now sett ttl : ℚ)
    (v : Option CVal) :
    ((Cache.Get c key now).2.1 = true ↔
      ∃ e, mapLookup c.entries key = some e ∧ e.IsExpired now = false) ∧
    (∀ e, mapLookup c.entries key = some e → e.IsExpired now = false →
      Cache.Get c key now = (e.value, true, c)) ∧
    (∀ e, mapLookup c.entries key = some e → e.IsExpired now = true →
      Cache.Get c key now = (none, false, c.Delete key)) ∧
    (now ≤ sett + ttl →
      Cache.Get (c.SetWithTTL key v ttl sett) key now = (v, true, c.SetWithTTL key v ttl sett)) ∧
    (sett + ttl < now → (Cache.Get (c.SetWithTTL key v ttl sett) key now).2.1 = false) := by
  refine ⟨?_, ?_, ?_, ?_, ?_⟩
  · constructor
    · intro hfound
      rcases hl : mapLookup c.entries key with _ | e
      · simp [Cache.Get, hl] at hfound
      · rcases hexp : e.IsExpired now with _ | _
        · exact ⟨e, rfl, hexp⟩
        · rw [show Cache.Get c key now = (none, false, c.Delete key) by
            simp [Cache.Get, hl, hexp]] at hfound
          simp at hfound

    · rintro ⟨e, hl, hexp⟩
      simp [Cache.Get, hl, hexp]
  · intro e hl hexp
    simp [Cache.Get, hl, hexp]
  · intro e hl hexp
    simp [Cache.Get, hl, hexp]
  · intro hfresh
    have hl := mapLookup_set c key v ttl sett
    have hexp : CacheEntry.IsExpired ⟨v, sett + ttl⟩ now = false := by
      simp [CacheEntry.IsExpired]
      linarith
    simp [Cache.Get, hl, hexp]
  · intro hstale
    have hl := mapLookup_set c key v ttl sett
    have hexp : CacheEntry.IsExpired ⟨v, sett + ttl⟩ now = true := by
      simp [CacheEntry.IsExpired]
      linarith
    simp [Cache.Get, hl, hexp]

/-- Witness for C7 on a one-entry cache read before and after its
TTL. -/
theorem c7_cache_get_lazy_expiry_witness :
    ((0 : ℚ) ≤ 0 + 50 →
      Cache.Get ((Cache.mk 100 []).SetWithTTL "k" (some (.num 7)) 50 0) "k" 0 =
        (some (.num 7), true, (Cache.mk 100 []).SetWithTTL "k" (some (.num 7)) 50 0)) ∧
    ((0 : ℚ) + 50 < 60 →
      (Cache.Get ((Cache.mk 100 []).SetWithTTL "k" (some (.num 7)) 50 0) "k" 60).2.1 = false) ∧
    ((0 : ℚ) ≤ 0 + 50 ∧ (0 : ℚ) + 50 < 60) :=
  ⟨(c7_cache_get_lazy_expiry (Cache.mk 100 []) "k" 0 0 50 (some (.num 7))).2.2.2.1,
    (c7_cache_get_lazy_expiry (Cache.mk 100 []) "k" 60 0 50 (some (.num 7))).2.2.2.2,
    by norm_num, by norm_num⟩

/-- C8 counterexample: with an expired entry under the key, a
`GetOrSet` whose compute function fails returns the error but does NOT
leave the cache map unchanged — the embedded `Get` lazily evicted the
expired entry. -/
theorem c8_getOrSet_counterexample :
    (Cache.GetOrSet ⟨100, [("k", ⟨some (.num 1), 0⟩)]⟩ "k" 1
        (none, some (.errorNew "boom"))).err = some (.errorNew "boom") ∧
    (Cache.GetOrSet ⟨100, [("k", ⟨some (.num 1), 0⟩)]⟩ "k" 1
        (none, some (.errorNew "boom"))).fnCalls = 1 ∧
    (Cache.GetOrSet ⟨100, [("k", ⟨some (.num 1), 0⟩)]⟩ "k" 1
        (none, some (.errorNew "boom"))).cache ≠ ⟨100, [("k", ⟨some (.num 1), 0⟩)]⟩ := by
  refine ⟨rfl, rfl, ?_⟩
  intro heq
  have : ([] : List (String × CacheEntry)) = [("k", ⟨some (.num 1), 0⟩)] :=
    congrArg Cache.entries heq
  simp at this

/-- C8 amended: `GetOrSet` returns a fresh cached value without running
the compute function; on a miss it runs it once; a failed computation
returns the error and stores nothing under the key (the only possible
map change being the lazy eviction of an expired entry by the embedded
`Get`), so a later `GetOrSet` under that key runs the function again;
only a successful computation is stored (with the default TTL) before
being returned. -/
theorem c8_getOrSet_failure_not_cached (c : Cache) (key : String) (now : ℚ)
    (fnRes : Option CVal × Option GoError) :
    (∀ v c1, Cache.Get c key now = (v, true, c1) →
      Cache.GetOrSet c key now fnRes = ⟨v, none, c1, 0⟩) ∧
    (∀ c1 e, Cache.Get c key now = (none, false, c1) → fnRes.2 = some e →
      Cache.GetOrSet c key now fnRes = ⟨none, some e, c1, 1⟩ ∧
        mapLookup c1.entries key = none) ∧
    (∀ c1 v, Cache.Get c key now = (none, false, c1) → fnRes = (v, none) →
      Cache.GetOrSet c key now fnRes = ⟨v, none, c1.Set key v now, 1⟩ ∧
        mapLookup (c1.Set key v now).entries key = some ⟨v, now + c1.defaultTTL⟩) ∧
    (∀ c2 : Cache, mapLookup c2.entries key = none →
      ∀ now2 fnRes2, (Cache.GetOrSet c2 key now2 fnRes2).fnCalls = 1) := by
  have hmiss : ∀ c1, Cache.Get c key now = (none, false, c1) →
      mapLookup c1.entries key = none := by
    intro c1 hget
    rcases hl : mapLookup c.entries key with _ | e
    · rw [show Cache.Get c key now = (none, false, c) by simp [Cache.Get, hl]] at hget
      injection hget with h1 h2
      injection h2 with h2a h2b
      rw [← h2b]
      exact hl
    · rcases hexp : e.IsExpired now with _ | _
      · rw [show Cache.Get c key now = (e.value, true, c) by
          simp [Cache.Get, hl, hexp]] at hget
        injection hget with h1 h2
        injection h2 with h2a h2b
        exact Bool.noConfusion h2a
      · rw [show Cache.Get c key now = (none, false, c.Delete key) by
          simp [Cache.Get, hl, hexp]] at hget
        injection hget with h1 h2
        injection h2 with h2a h2b
        rw [← h2b]
        exact mapLookup_delete c key
  refine ⟨?_, ?_, ?_, ?_⟩
  · intro v c1 hget
    simp [Cache.GetOrSet, hget]
  · intro c1 e hget herr
    obtain ⟨fv, fe⟩ := fnRes
    simp only at herr
    subst herr
    exact ⟨by simp [Cache.GetOrSet, hget], hmiss c1 hget⟩
  · intro c1 v hget hres
    subst hres
    exact ⟨by simp [Cache.GetOrSet, hget], mapLookup_set c1 key v c1.defaultTTL now⟩
  · intro c2 hlk2 now2 fnRes2
    have hget2 : Cache.Get c2 key now2 = (none, false, c2) := by
      simp [Cache.Get, hlk2]
    obtain ⟨fv2, fe2⟩ := fnRes2
    rcases fe2 with _ | e2
    · simp [Cache.GetOrSet, hget2]
    · simp [Cache.GetOrSet, hget2]

/-- Witness for C8's amended statement: a failed computation on an
empty cache stores nothing, and a successful one stores the value. -/
theorem c8_getOrSet_failure_not_cached_witness :
    (Cache.GetOrSet ⟨100, []⟩ "k" 0 (none, some (.errorNew "boom")) =
        ⟨none, some (.errorNew "boom"), ⟨100, []⟩, 1⟩ ∧
      mapLookup (Cache.mk 100 []).entries "k" = none) ∧
    (∀ now2 fnRes2, (Cache.GetOrSet ⟨100, []⟩ "k" now2 fnRes2).fnCalls = 1) :=
  ⟨(c8_getOrSet_failure_not_cached ⟨100, []⟩ "k" 0
        (none, some (.errorNew "boom"))).2.1 ⟨100, []⟩ (.errorNew "boom") rfl rfl,
    fun now2 fnRes2 =>
      (c8_getOrSet_failure_not_cached ⟨100, []⟩ "k" 0 (none, some (.errorNew "boom"))).2.2.2
        ⟨100, []⟩ rfl now2 fnRes2⟩

/-- C10: when the cache holds a fresh entry for the key whose stored
value does not have the asserted dynamic type, `GetTyped` returns the
zero value with found = false — exactly the absent-key answer — and
leaves the entry in place. -/
theorem c10_getTyped_mismatch {α : Type} (asT : CVal → Option α) (c : Cache) (key : String)
    (now : ℚ) (e : CacheEntry)
    (hl : mapLookup c.entries key = some e) (hfresh : e.IsExpired now = false)
    (hmis : ∀ v, e.value = some v → asT v = none) :
    GetTyped asT c key now = (none, false, c) ∧
    (∀ c2 : Cache, mapLookup c2.entries key = none →
      GetTyped asT c2 key now = (none, false, c2)) := by
  constructor
  · rcases hv : e.value with _ | v
    · simp [GetTyped, Cache.Get, hl, hfresh, hv]
    · simp [GetTyped, Cache.Get, hl, hfresh, hv, hmis v hv]
  · intro c2 hlk2
    simp [GetTyped, Cache.Get, hlk2]

/-- Witness for C10: a string stored under the key is invisible to a
categories-typed read, which leaves the entry in the cache. -/
theorem c10_getTyped_mismatch_witness :
    GetTyped (fun v => match v with | CVal.categories n => some n | _ => none)
        ⟨100, [("k", ⟨some (.str "oops"), 50⟩)]⟩ "k" 0 =
      (none, false, ⟨100, [("k", ⟨some (.str "oops"), 50⟩)]⟩) ∧
    (∀ c2 : Cache, mapLookup c2.entries "k" = none →
      GetTyped (fun v => match v with | CVal.categories n => some n | _ => none) c2 "k" 0 =
        (none, false, c2)) :=
  c10_getTyped_mismatch (fun v => match v with | CVal.categories n => some n | _ => none)
    ⟨100, [("k", ⟨some (.str "oops"), 50⟩)]⟩ "k" 0 ⟨some (.str "oops"), 50⟩
    (by simp [mapLookup, List.find?_cons]) (by simp [CacheEntry.IsExpired])
    (by intro v hv; simp at hv; rw [← hv])

/-- C5: with a cache configured, a fresh "categories" hit returns the
cached slice with zero rate-limiter, retryer and operation
invocations; on a miss the composition runs rate-limit, then retry,
then the operation: a rate-limiter cancellation error is returned with
zero operation invocations, and a granted token followed by a
first-try success performs exactly one wait, one retryer entry and one
operation call before the result is stored back in the cache. -/
theorem c5_getCategories_composition
    (c : ClientState) (cancelledAt : Option ℚ) (fuel : ℕ) (us : ℕ → ℚ)
    (fn : ℕ → Option ℕ × Option GoError) (now : ℚ) (cache : Cache)
    (hc : c.cache = some cache) :
    (∀ v c1, cache.Get "categories" now = (some (CVal.categories v), true, c1) →
      GetCategories c cancelledAt fuel us fn now =
        .ran ⟨some v, none, { c with cache := some c1 }, 0, 0, 0⟩) ∧
    (∀ c1 rl rl1 t1 e, cache.Get "categories" now = (none, false, c1) →
      c.rateLimiter = some rl →
      WaitAux cancelledAt fuel rl now = some ⟨some e, rl1, t1⟩ →
      GetCategories c cancelledAt fuel us fn now =
        .ran ⟨none, some e, { c with rateLimiter := some rl1, cache := some c1 },
          1, 0, 0⟩) ∧
    (∀ c1 rl rl1 cfg v, cache.Get "categories" now = (none, false, c1) →
      c.rateLimiter = some rl →
      TryAcquire rl now = (true, rl1) →
      c.retryer = some cfg → 0 ≤ cfg.maxRetries →
      fn 0 = (some v, none) →
      GetCategories c cancelledAt (fuel + 1) us fn now =
        .ran ⟨some v, none,
          { c with rateLimiter := some rl1,
                   cache := some (c1.Set "categories" (some (.categories v)) now) },
          1, 1, 1⟩) := by
  refine ⟨?_, ?_, ?_⟩
  · intro v c1 hget
    simp only [GetCategories, hc, hget]
  · intro c1 rl rl1 t1 e hget hrl hwait
    simp only [GetCategories, hc, hget, GetCategoriesMiss, executeWithMiddlewareResult,
      hrl, hwait]
  · intro c1 rl rl1 cfg v hget hrl hta hcfg hmr hfn
    have hwait : WaitAux cancelledAt (fuel + 1) rl now = some ⟨none, rl1, now⟩ := by
      rw [WaitAux_succ]
      simp [waitStep, hta]
    have hfuel2 : (1 + cfg.maxRetries).toNat = cfg.maxRetries.toNat + 1 := by omega
    have hdo : DoWithResult cfg cancelledAt us fn now = ⟨some v, none, 1, now⟩ := by
      unfold DoWithResult
      rw [hfuel2]
      simp [doWithResultAux, hfn]
    simp only [GetCategories, hc, hget, GetCategoriesMiss, executeWithMiddlewareResult,
      hrl, hwait, hcfg, hdo]

/-- Witness for C5: a fresh cache hit short-circuits the whole
composition on a concrete client. -/
theorem c5_getCategories_composition_witness :
    GetCategories
        ⟨some ⟨1, 1, 1, 0⟩, some ⟨3, 1, 1, 2, 0, none⟩,
          some ⟨100, [("categories", ⟨some (.categories 7), 50⟩)]⟩⟩
        none 1 (fun _ => 0) (fun _ => (some 9, none)) 0 =
      .ran ⟨some 7, none,
        ⟨some ⟨1, 1, 1, 0⟩, some ⟨3, 1, 1, 2, 0, none⟩,
          some ⟨100, [("categories", ⟨some (.categories 7), 50⟩)]⟩⟩, 0, 0, 0⟩ :=
  (c5_getCategories_composition
      ⟨some ⟨1, 1, 1, 0⟩, some ⟨3, 1, 1, 2, 0, none⟩,
        some ⟨100, [("categories", ⟨some (.categories 7), 50⟩)]⟩⟩
      none 1 (fun _ => 0) (fun _ => (some 9, none)) 0
      ⟨100, [("categories", ⟨some (.categories 7), 50⟩)]⟩ rfl).1 7
    ⟨100, [("categories", ⟨some (.categories 7), 50⟩)]⟩
    (by norm_num [Cache.Get, mapLookup, List.find?_cons, CacheEntry.IsExpired])

/-- Witness for C1's amended statement at concrete inputs. -/
theorem c1_precancelled_behaviour_witness :
    ((0 : ℚ) ≤ 0 ∧ (0 : ℚ) ≤ 0 ∧ (0 : ℤ) < 3) ∧
    ((Wait (some 0) 1 (NewRateLimiterWithBurst 1 0 0) 0 =
      match TryAcquire (NewRateLimiterWithBurst 1 0 0) 0 with
      | (true, rl1) => some ⟨none, rl1, 0⟩
      | (false, rl1) => some ⟨some .contextCanceled, rl1, 0⟩) ∧
    (Do ⟨3, timeSecond, 30 * timeSecond, 2, 0, some (fun e => IsRetryable (some e))⟩
        (some 0) (fun _ => 0) (fun _ => some (GoError.networkErrorNil "dial")) 0).calls = 1 ∧
    (Do ⟨3, timeSecond, 30 * timeSecond, 2, 0, some (fun e => IsRetryable (some e))⟩
        (some 0) (fun _ => 0) (fun _ => some (GoError.networkErrorNil "dial")) 0 =
      match (fun _ : ℕ => some (GoError.networkErrorNil "dial")) 0 with
      | none => ⟨none, 1⟩
      | some e =>
        if retryableBy
            ⟨3, timeSecond, 30 * timeSecond, 2, 0, some (fun e => IsRetryable (some e))⟩ e
        then ⟨some .contextCanceled, 1⟩ else ⟨some e, 1⟩)) :=
  ⟨⟨le_refl 0, le_refl 0, by norm_num⟩,
    c1_precancelled_behaviour (NewRateLimiterWithBurst 1 0 0) 0 0 0
      ⟨3, timeSecond, 30 * timeSecond, 2, 0, some (fun e => IsRetryable (some e))⟩
      (fun _ => 0) (fun _ => some (GoError.networkErrorNil "dial")) 0
      (le_refl 0) (le_refl 0) (by norm_num)⟩

end Tradera
